import Mathlib

/-!
Verification of the image-optimizer job orchestration subsystem
(src/app.py, src/tasks.py, src/optimize_images.py) against its
natural-language specification.

The per-file codec (Wand / PIL) is an external collaborator; it is
modelled by an oracle `enc : SaveOp → Option ℕ` giving the byte size the
codec writes for a requested save operation (`none` models a codec
exception), and by a `decoded : Option DecodedImage` field on each input
file (`none` models an exception while opening/decoding the input).
Everything else is translated directly from the Python source.
-/

namespace ImageOptimizer

/-- Image formats as reported by the decoders. -/
inductive Format
  | JPEG | PNG | GIF | BMP | TIFF | WEBP
  deriving DecidableEq, Repr

/-- PIL image modes relevant to the transparency test in src/tasks.py line 26
and src/optimize_images.py lines 21-22. -/
inductive PilMode
  | RGB | RGBA | LA | P | L | CMYK
  deriving DecidableEq, Repr

/-- A successfully decoded image as the code observes it: its reported format,
its PIL mode, whether PIL's `info` dict has a transparency key, Wand's
`alpha_channel` flag, and an opaque pixel-content identifier. -/
structure DecodedImage where
  format : Format
  mode : PilMode
  transparencyInInfo : Bool
  alphaChannel : Bool
  content : ℕ
  deriving DecidableEq, Repr

/-- An input file discovered under the extraction root: its basename, its
directory relative to the input root, its size on disk, and the outcome of
decoding it (`none` models the decoder raising). -/
structure InputFile where
  name : String
  dir : String
  originalSize : ℕ
  decoded : Option DecodedImage
  deriving DecidableEq, Repr

/-- A save request issued to the external codec: JPEG with a quality setting
and an optimize flag, PNG with an optimize flag, or any format saved as-is. -/
inductive SaveOp
  | jpeg (content : ℕ) (quality : ℤ) (optimize : Bool)
  | png (content : ℕ) (optimize : Bool)
  | asIs (content : ℕ) (fmt : Format)
  deriving DecidableEq, Repr

/-- One output file written into the output tree: its relative directory,
its basename, its size, and the save operation that produced it. -/
structure OutputEntry where
  dir : String
  base : String
  size : ℕ
  op : SaveOp
  deriving DecidableEq, Repr

/-- The per-file result record (the payload of a FileComplete event /
the dict returned by src/tasks.py optimize_image). -/
structure FileResult where
  fileName : String
  originalSize : ℕ
  optimizedSize : ℕ
  savingPercentage : ℚ
  status : String
  deriving DecidableEq, Repr

/-- Saving percentage exactly as computed at src/app.py line 105 and
src/tasks.py line 42:
`((original_size - optimized_size) / original_size) * 100 if original_size > 0 else 0`. -/
def savingPercentage (origSize optSize : ℕ) : ℚ :=
  if 0 < origSize then (((origSize : ℚ) - (optSize : ℚ)) / (origSize : ℚ)) * 100 else 0

/-- Index of the last occurrence of a character in a list, if any. -/
def lastIdxOf (c : Char) (cs : List Char) : Option ℕ :=
  ((List.range cs.length).filter (fun i => cs.getD i ' ' == c)).getLast?

/-- Python str.lower for the ASCII names handled here, mapped over the
characters. -/
def lowerStr (s : String) : String := String.mk (s.data.map Char.toLower)

/-- CPython os.path.splitext restricted to a basename: split off the extension
beginning at the last dot, provided some character strictly before that dot is
not itself a dot (so dotfiles like ".gif" have no extension). -/
def splitext (s : String) : String × String :=
  let cs := s.data
  match lastIdxOf '.' cs with
  | none => (s, "")
  | some i =>
    if (cs.take i).any (fun ch => ch != '.') then
      (String.mk (cs.take i), String.mk (cs.drop i))
    else (s, "")

/-- Extension allow-list of the in-process walker, src/app.py line 124. -/
def appImageExtensions : List String :=
  [".jpg", ".jpeg", ".png", ".gif", ".bmp", ".tiff", ".webp"]

/-- Extension allow-list of the distributed task, src/tasks.py line 63. -/
def tasksImageExtensions : List String :=
  [".jpg", ".jpeg", ".png"]

/-- Extension allow-list of the CLI tool, src/optimize_images.py line 58. -/
def cliImageExtensions : List String :=
  [".jpg", ".jpeg", ".png"]

/-- File discovery: keep the walked files whose lower-cased extension is in
the allow-list (`os.path.splitext(file)[1].lower() in image_extensions`). -/
def discover (exts : List String) (walked : List InputFile) : List InputFile :=
  walked.filter (fun f => exts.contains (lowerStr (splitext f.name).2))

/-- Progress events pushed by the in-process pipeline (src/app.py). -/
inductive Event
  | progress (percent : ℚ)
  | fileComplete (r : FileResult)
  | processingComplete
  deriving DecidableEq, Repr

/-- Outcome of one Wand-based per-file attempt, src/app.py optimize_image
lines 66-115: the FileComplete record for this file and the output file
written, if any. `decoded = none` and `enc _ = none` both model a
WandException caught at line 91, which yields the error record. When
`convert_png` is set, the input is a PNG and `alpha_channel` is false, the
image is converted to JPEG and the output extension is rewritten to ".jpg";
a transparent PNG merely logs a message and leaves `status = "optimized"`. -/
def wandFileResult (enc : SaveOp → Option ℕ) (f : InputFile) (jpegQuality : ℤ)
    (convertPng : Bool) : FileResult × Option OutputEntry :=
  let errorResult : FileResult :=
    { fileName := f.name, originalSize := f.originalSize, optimizedSize := 0,
      savingPercentage := 0, status := "error" }
  match f.decoded with
  | none => (errorResult, none)
  | some img =>
    let convert : Bool := convertPng && (img.format == Format.PNG) && !img.alphaChannel
    let fmt : Format := if convert then Format.JPEG else img.format
    let base : String := if convert then (splitext f.name).1 ++ ".jpg" else f.name
    let status : String := if convert then "converted" else "optimized"
    let op : SaveOp :=
      if fmt == Format.JPEG then SaveOp.jpeg img.content jpegQuality false
      else SaveOp.asIs img.content fmt
    match enc op with
    | none => (errorResult, none)
    | some optSize =>
      ({ fileName := f.name, originalSize := f.originalSize, optimizedSize := optSize,
         savingPercentage := savingPercentage f.originalSize optSize, status := status },
       some { dir := f.dir, base := base, size := optSize, op := op })

/-- src/app.py optimize_image, whole body: the progress event at lines 62-63
is pushed before the transform is attempted, then the attempt concludes with
exactly one FileComplete event. -/
def wandOptimizeImage (enc : SaveOp → Option ℕ) (f : InputFile)
    (totalFiles currentFile : ℕ) (jpegQuality : ℤ) (convertPng : Bool) :
    List Event × Option OutputEntry :=
  let r := wandFileResult enc f jpegQuality convertPng
  ([Event.progress (((currentFile : ℚ) / (totalFiles : ℚ)) * 100),
    Event.fileComplete r.1], r.2)

/-- The per-file loop of src/app.py process_images lines 134-142, with the
1-based index threaded through (`enumerate(image_files, 1)`). -/
def processFiles (enc : SaveOp → Option ℕ) (total : ℕ) (jpegQuality : ℤ)
    (convertPng : Bool) : ℕ → List InputFile → List Event × List OutputEntry
  | _, [] => ([], [])
  | idx, f :: fs =>
    let r := wandOptimizeImage enc f total idx jpegQuality convertPng
    let rest := processFiles enc total jpegQuality convertPng (idx + 1) fs
    (r.1 ++ rest.1, r.2.toList ++ rest.2)

/-- src/app.py process_images: discover the image files, process each in
order, then push the terminal processing_complete event (line 145). -/
def processImages (enc : SaveOp → Option ℕ) (walked : List InputFile)
    (jpegQuality : ℤ) (convertPng : Bool) : List Event × List OutputEntry :=
  let files := discover appImageExtensions walked
  let r := processFiles enc files.length jpegQuality convertPng 1 files
  (r.1 ++ [Event.processingComplete], r.2)

/-- The transparency test of src/tasks.py line 26 and
src/optimize_images.py lines 21-22:
`img.mode in ("RGBA", "LA") or (img.mode == "P" and "transparency" in img.info)`. -/
def pilHasTransparency (img : DecodedImage) : Bool :=
  img.mode == PilMode.RGBA || img.mode == PilMode.LA ||
    (img.mode == PilMode.P && img.transparencyInInfo)

/-- Outcome of one PIL-based per-file attempt in the distributed task,
src/tasks.py optimize_image lines 16-59. A transparent PNG under
`convert_png` gets `status = "skipped"` and is still re-saved as PNG; any
exception (decode or save) yields the error record with
`optimized_size = 0`, `saving_percentage = 0`. -/
def tasksFileResult (enc : SaveOp → Option ℕ) (f : InputFile) (jpegQuality : ℤ)
    (convertPng : Bool) : FileResult × Option OutputEntry :=
  let errorResult : FileResult :=
    { fileName := f.name, originalSize := f.originalSize, optimizedSize := 0,
      savingPercentage := 0, status := "error" }
  match f.decoded with
  | none => (errorResult, none)
  | some img =>
    let isPng : Bool := img.format == Format.PNG
    let skipped : Bool := convertPng && isPng && pilHasTransparency img
    let convert : Bool := convertPng && isPng && !pilHasTransparency img
    let fmt : Format := if convert then Format.JPEG else img.format
    let base : String := if convert then (splitext f.name).1 ++ ".jpg" else f.name
    let status : String :=
      if convert then "converted" else if skipped then "skipped" else "optimized"
    let op : SaveOp :=
      if fmt == Format.JPEG then SaveOp.jpeg img.content jpegQuality true
      else if fmt == Format.PNG then SaveOp.png img.content true
      else SaveOp.asIs img.content fmt
    match enc op with
    | none => (errorResult, none)
    | some optSize =>
      ({ fileName := f.name, originalSize := f.originalSize, optimizedSize := optSize,
         savingPercentage := savingPercentage f.originalSize optSize, status := status },
       some { dir := f.dir, base := base, size := optSize, op := op })

/-- A cumulative progress snapshot written to the shared store by the
distributed task (src/tasks.py lines 84-89). -/
structure Snapshot where
  progress : ℚ
  current : ℕ
  total : ℕ
  deriving DecidableEq, Repr

/-- The per-file loop of src/tasks.py process_images_task lines 69-89:
process the file, append its result, then write the progress snapshot
(`processed` is incremented after the transform, so each snapshot is
published after its file completes). -/
def tasksProcessFiles (enc : SaveOp → Option ℕ) (total : ℕ) (jpegQuality : ℤ)
    (convertPng : Bool) :
    ℕ → List InputFile → List FileResult × List Snapshot × List OutputEntry
  | _, [] => ([], [], [])
  | processed, f :: fs =>
    let r := tasksFileResult enc f jpegQuality convertPng
    let snap : Snapshot :=
      { progress := ((((processed + 1 : ℕ)) : ℚ) / (total : ℚ)) * 100,
        current := processed + 1, total := total }
    let rest := tasksProcessFiles enc total jpegQuality convertPng (processed + 1) fs
    (r.1 :: rest.1, snap :: rest.2.1, r.2.toList ++ rest.2.2)

/-- src/tasks.py process_images_task: discovery with the narrow extension
set, then the sequential loop. -/
def tasksProcessImages (enc : SaveOp → Option ℕ) (walked : List InputFile)
    (jpegQuality : ℤ) (convertPng : Bool) :
    List FileResult × List Snapshot × List OutputEntry :=
  let files := discover tasksImageExtensions walked
  tasksProcessFiles enc files.length jpegQuality convertPng 0 files

/-- Outcome of one per-file attempt in the CLI tool,
src/optimize_images.py optimize_image lines 14-37: a success flag and the
output written, with the same save logic as the distributed task. -/
def cliOptimizeImage (enc : SaveOp → Option ℕ) (f : InputFile) (jpegQuality : ℤ)
    (convertPng : Bool) : Bool × Option OutputEntry :=
  match f.decoded with
  | none => (false, none)
  | some img =>
    let convert : Bool :=
      convertPng && (img.format == Format.PNG) && !pilHasTransparency img
    let fmt : Format := if convert then Format.JPEG else img.format
    let base : String := if convert then (splitext f.name).1 ++ ".jpg" else f.name
    let op : SaveOp :=
      if fmt == Format.JPEG then SaveOp.jpeg img.content jpegQuality true
      else if fmt == Format.PNG then SaveOp.png img.content true
      else SaveOp.asIs img.content fmt
    match enc op with
    | none => (false, none)
    | some optSize =>
      (true, some { dir := f.dir, base := base, size := optSize, op := op })

/-- Process-wide server state: the lifetime optimization counter
(src/app.py line 46) and the contents of the /tmp/downloads directory,
keyed by generated zip filename. -/
structure ServerState where
  optimizationCount : ℕ
  downloads : List (String × List OutputEntry)
  deriving DecidableEq, Repr

/-- What the SSE generator yields to the client (src/app.py lines 210-236):
a data record per event, or the terminal complete record naming the zip. -/
inductive StreamOut
  | data (e : Event)
  | complete (zipFile : String) (progress : ℚ)
  deriving DecidableEq, Repr

/-- The SSE generator of src/app.py optimize_stream lines 210-236: drain the
queue; on processing_complete increment the lifetime counter, assemble the
zip of the output tree under a fresh name, yield the terminal record and
stop; otherwise forward the event. `freshName` stands for the generated
uuid hex name and `outputs` for the output tree being zipped. -/
def runStream (freshName : String) (outputs : List OutputEntry) :
    ServerState → List Event → List StreamOut × ServerState
  | st, [] => ([], st)
  | st, e :: rest =>
    match e with
    | Event.processingComplete =>
      ([StreamOut.complete freshName 100],
       { optimizationCount := st.optimizationCount + 1,
         downloads := st.downloads ++ [(freshName, outputs)] })
    | e' =>
      let r := runStream freshName outputs st rest
      (StreamOut.data e' :: r.1, r.2)

/-- src/app.py download_file lines 244-251: the response body is looked up
in the downloads directory as it stands when the request is served
(`send_from_directory`); a missing name raises NotFound (a 404) before the
cleanup callback is ever registered. -/
def downloadLookup (st : ServerState) (name : String) : Option (List OutputEntry) :=
  st.downloads.lookup name

/-- src/app.py download_file lines 253-260: the `call_on_close` callback
removes the served file once the response has been flushed and closed; when
the lookup raised NotFound no callback was registered and the state is
unchanged. -/
def downloadClose (st : ServerState) (name : String) : ServerState :=
  match st.downloads.lookup name with
  | none => st
  | some _ => { st with downloads := st.downloads.filter (fun p => p.1 != name) }

/-- The only operations the code ever performs on the downloads directory:
registration of a freshly assembled artifact by the SSE generator, and a
client download (lookup followed by close-time removal). There is no
time-based reaper anywhere in the source. -/
inductive StoreOp
  | register (name : String) (art : List OutputEntry)
  | download (name : String)
  deriving DecidableEq, Repr

/-- Apply one store operation to the server state. -/
def applyOp (st : ServerState) : StoreOp → ServerState
  | StoreOp.register n a => { st with downloads := st.downloads ++ [(n, a)] }
  | StoreOp.download n => downloadClose st n

/-- Apply a sequence of store operations. -/
def applyOps (st : ServerState) (ops : List StoreOp) : ServerState :=
  ops.foldl applyOp st

/-- The fixed extraction root used by src/app.py (line 177), as path
components. -/
def inputRoot : List String := ["tmp", "input"]

/-- CPython zipfile extraction sanitization (`ZipFile._extract_member`):
empty, "." and ".." path components of a member name are dropped before the
name is joined under the extraction root, so no entry can escape it. -/
def sanitizeMember (parts : List String) : List String :=
  parts.filter (fun x => !(x == "" || x == "." || x == ".."))

/-- Where `extractall(root)` materializes a member: the root followed by the
sanitized member components. -/
def extractTarget (root parts : List String) : List String :=
  root ++ sanitizeMember parts

/-- Whether a member's relative path would resolve outside the extraction
root under naive joining: track the depth below the root while ".."
components pop and ordinary components push. -/
def wouldEscapeFrom : ℤ → List String → Bool
  | _, [] => false
  | d, p :: ps =>
    if p == ".." then (if d - 1 < 0 then true else wouldEscapeFrom (d - 1) ps)
    else if p == "." || p == "" then wouldEscapeFrom d ps
    else wouldEscapeFrom (d + 1) ps

/-- A member escapes when, starting at the root, its resolution ever climbs
above the root. -/
def wouldEscape (parts : List String) : Bool :=
  wouldEscapeFrom 0 parts

/-- The thread arguments dispatched by src/app.py lines 195-199 when a
submission is accepted, together with the tree extracted from the archive. -/
structure JobSpec where
  jpegQuality : ℤ
  convertPng : Bool
  extracted : List (List String)
  deriving DecidableEq, Repr

/-- An upload request as the handler observes it: whether the form has a
zip_file part, its filename, the jpeg_quality field (`none` models an
absent or non-integer field, which falls back to 85), the truthiness of the
convert_png field, and the archive contents (`none` models BadZipFile). -/
structure UploadRequest where
  hasFilePart : Bool
  filename : String
  jpegQualityField : Option ℤ
  convertPngField : Bool
  zipEntries : Option (List (List String))
  deriving DecidableEq, Repr

/-- The handler's return value: the JSON body as key-value pairs, the HTTP
status, and the dispatched background job if one was started. -/
structure SubmitResult where
  response : List (String × String)
  httpStatus : ℕ
  job : Option JobSpec
  deriving DecidableEq, Repr

/-- The upload filename check of src/app.py line 165:
`file.filename.lower().endswith('.zip')`. -/
def endsWithZip (s : String) : Bool :=
  List.isSuffixOf (".zip").data (lowerStr s).data

/-- src/app.py optimize lines 151-201: validate the upload, parse options,
extract the archive into the input root, start the processing thread, and
return at once. The response is built without running any processing; the
only archive-level rejection is BadZipFile. -/
def optimizeSubmit (req : UploadRequest) : SubmitResult :=
  if !req.hasFilePart then
    { response := [("status", "error"), ("message", "No file part")],
      httpStatus := 400, job := none }
  else if req.filename == "" then
    { response := [("status", "error"), ("message", "No file selected")],
      httpStatus := 400, job := none }
  else if !(endsWithZip req.filename) then
    { response := [("status", "error"), ("message", "Invalid file type")],
      httpStatus := 400, job := none }
  else
    let q : ℤ := req.jpegQualityField.getD 85
    match req.zipEntries with
    | none =>
      { response := [("status", "error"), ("message", "Invalid ZIP file")],
        httpStatus := 400, job := none }
    | some entries =>
      { response := [("status", "success")], httpStatus := 200,
        job := some { jpegQuality := q, convertPng := req.convertPngField,
                      extracted := entries.map (extractTarget inputRoot) } }

/-- One whole in-process job: submission, then (when accepted) the worker
thread over the extracted tree `walked` and the SSE consumer that assembles
and registers the artifact. A rejected submission runs nothing. -/
def runJob (enc : SaveOp → Option ℕ) (walked : List InputFile) (freshName : String)
    (st : ServerState) (req : UploadRequest) :
    SubmitResult × List StreamOut × ServerState :=
  let sub := optimizeSubmit req
  match sub.job with
  | none => (sub, [], st)
  | some j =>
    let pr := processImages enc walked j.jpegQuality j.convertPng
    let str := runStream freshName pr.2 st pr.1
    (sub, str.1, str.2)

/-- The percents carried by the progress events of an event list, in order. -/
def progressPercents (evs : List Event) : List ℚ :=
  evs.filterMap (fun e => match e with | Event.progress p => some p | _ => none)

/-- The FileComplete records of an event list, in order. -/
def fileCompletes (evs : List Event) : List FileResult :=
  evs.filterMap (fun e => match e with | Event.fileComplete r => some r | _ => none)

/-! Concrete fixtures used to instantiate the theorems below. -/

/-- An encoder oracle that writes 10 bytes for every save request. -/
def enc10 : SaveOp → Option ℕ := fun _ => some 10

/-- An encoder oracle that raises on every save request. -/
def encNone : SaveOp → Option ℕ := fun _ => none

/-- A decoded GIF image. -/
def gifImg : DecodedImage :=
  { format := Format.GIF, mode := PilMode.P, transparencyInInfo := false,
    alphaChannel := false, content := 7 }

/-- A decoded PNG image without transparency. -/
def pngImg : DecodedImage :=
  { format := Format.PNG, mode := PilMode.RGB, transparencyInInfo := false,
    alphaChannel := false, content := 5 }

/-- A decoded PNG image with an alpha channel (RGBA mode). -/
def pngAlphaImg : DecodedImage :=
  { format := Format.PNG, mode := PilMode.RGBA, transparencyInInfo := false,
    alphaChannel := true, content := 6 }

/-- A decoded JPEG image. -/
def jpegImg : DecodedImage :=
  { format := Format.JPEG, mode := PilMode.RGB, transparencyInInfo := false,
    alphaChannel := false, content := 1 }

/-- A tree holding a single .gif file. -/
def gifTree : List InputFile :=
  [{ name := "photo.gif", dir := ".", originalSize := 500, decoded := some gifImg }]

/-- A decodable .png input file. -/
def pngFile : InputFile :=
  { name := "evil.png", dir := ".", originalSize := 300, decoded := some pngImg }

/-- A tree holding a single decodable .png file. -/
def evilTree : List InputFile := [pngFile]

/-- An input file whose decoding raises. -/
def badFile : InputFile :=
  { name := "bad.png", dir := ".", originalSize := 7, decoded := none }

/-- A batch of three files whose middle file fails to decode. -/
def mixedTree : List InputFile :=
  [{ name := "a.jpg", dir := ".", originalSize := 100, decoded := some jpegImg },
   badFile,
   { name := "b.png", dir := ".", originalSize := 200, decoded := some pngImg }]

/-- A transparent PNG input file. -/
def alphaFile : InputFile :=
  { name := "t.png", dir := ".", originalSize := 400, decoded := some pngAlphaImg }

/-- A well-formed upload request. -/
def reqOk : UploadRequest :=
  { hasFilePart := true, filename := "images.zip", jpegQualityField := some 85,
    convertPngField := false, zipEntries := some [["a.png"]] }

/-- A well-formed upload request whose archive holds a path-escaping entry. -/
def reqEvil : UploadRequest :=
  { hasFilePart := true, filename := "evil.zip", jpegQualityField := none,
    convertPngField := false, zipEntries := some [["..", "evil.png"]] }

/-- An upload request whose payload is not a valid zip (BadZipFile). -/
def reqBadZip : UploadRequest :=
  { hasFilePart := true, filename := "images.zip", jpegQualityField := some 85,
    convertPngField := false, zipEntries := none }

/-- The job dispatched for the valid request above. -/
def jobOk : JobSpec :=
  { jpegQuality := 85, convertPng := false, extracted := [["tmp", "input", "a.png"]] }

/-- A server state holding one registered artifact named "a". -/
def st0 : ServerState :=
  { optimizationCount := 0, downloads := [("a", [])] }

/-- Store operations that never download the artifact named "a". -/
def opsOther : List StoreOp :=
  [StoreOp.register ("b") [], StoreOp.download ("b"), StoreOp.download ("c")]

section Helpers

variable {α : Type}

/-- A key found in the left part of an appended association list is still
found, with the same value, in the whole list. -/
theorem lookup_append_some {l₁ l₂ : List (String × α)} {k : String} {a : α}
    (h : l₁.lookup k = some a) : (l₁ ++ l₂).lookup k = some a := by
  induction l₁ with
  | nil => simp [List.lookup] at h
  | cons p t ih =>
    rw [List.cons_append]
    cases hk : (k == p.1) with
    | true => simpa [List.lookup, hk] using h
    | false =>
      rw [List.lookup, hk] at h
      rw [List.lookup, hk]
      exact ih h

/-- Removing every pair with key `n` makes lookups of `n` fail. -/
theorem lookup_filter_self (l : List (String × α)) (n : String) :
    (l.filter (fun p => p.1 != n)).lookup n = none := by
  induction l with
  | nil => rfl
  | cons p t ih =>
    cases hp : (p.1 == n) with
    | true => simpa [List.filter, bne, hp] using ih
    | false =>
      have hn : (n == p.1) = false := by
        have h1 : p.1 ≠ n := by simpa using hp
        simpa using fun h => h1 h.symm
      simp only [List.filter, bne, hp, Bool.not_false]
      rw [List.lookup, hn]
      exact ih

/-- Removing every pair with key `n` leaves lookups of a different key
unchanged. -/
theorem lookup_filter_ne {l : List (String × α)} {k n : String} (hne : k ≠ n) :
    (l.filter (fun p => p.1 != n)).lookup k = l.lookup k := by
  induction l with
  | nil => rfl
  | cons p t ih =>
    cases hp : (p.1 == n) with
    | true =>
      have hk : (k == p.1) = false := by
        have h1 : p.1 = n := by simpa using hp
        simpa using fun h => hne (h.trans h1)
      simp only [List.filter, bne, hp, Bool.not_true]
      simp only [bne] at ih
      rw [ih, List.lookup, hk]
    | false =>
      simp only [List.filter, bne, hp, Bool.not_false]
      rw [List.lookup, List.lookup]
      cases hk : (k == p.1) with
      | true => rfl
      | false => exact ih

/-- The SSE generator increments the lifetime counter exactly once when a
processing_complete event is in the stream, and never otherwise. -/
theorem runStream_count (freshName : String) (outputs : List OutputEntry)
    (st : ServerState) (evs : List Event) :
    (runStream freshName outputs st evs).2.optimizationCount =
      if Event.processingComplete ∈ evs then st.optimizationCount + 1
      else st.optimizationCount := by
  induction evs generalizing st with
  | nil => simp [runStream]
  | cons e rest ih => cases e <;> simp [runStream, ih]

/-- The SSE generator registers the assembled artifact exactly when a
processing_complete event is in the stream. -/
theorem runStream_downloads (freshName : String) (outputs : List OutputEntry)
    (st : ServerState) (evs : List Event) :
    (runStream freshName outputs st evs).2.downloads =
      if Event.processingComplete ∈ evs then st.downloads ++ [(freshName, outputs)]
      else st.downloads := by
  induction evs generalizing st with
  | nil => simp [runStream]
  | cons e rest ih => cases e <;> simp [runStream, ih]

/-- The in-process worker always ends its event stream with the terminal
processing_complete event. -/
theorem processingComplete_mem (enc : SaveOp → Option ℕ) (walked : List InputFile)
    (q : ℤ) (cp : Bool) :
    Event.processingComplete ∈ (processImages enc walked q cp).1 := by
  simp [processImages]

/-- The FileComplete records emitted by the in-process loop are exactly the
per-file results, one per file and in file order. -/
theorem fileCompletes_processFiles (enc : SaveOp → Option ℕ) (total : ℕ)
    (q : ℤ) (cp : Bool) (idx : ℕ) (fs : List InputFile) :
    fileCompletes (processFiles enc total q cp idx fs).1 =
      fs.map (fun f => (wandFileResult enc f q cp).1) := by
  induction fs generalizing idx with
  | nil => rfl
  | cons f t ih =>
    simp only [processFiles, wandOptimizeImage, List.map_cons]
    rw [show ([Event.progress (((idx : ℚ) / (total : ℚ)) * 100),
          Event.fileComplete (wandFileResult enc f q cp).1] ++
          (processFiles enc total q cp (idx + 1) t).1) =
        Event.progress (((idx : ℚ) / (total : ℚ)) * 100) ::
          Event.fileComplete (wandFileResult enc f q cp).1 ::
          (processFiles enc total q cp (idx + 1) t).1 from rfl]
    simp only [fileCompletes, List.filterMap_cons]
    rw [← fileCompletes, ih]

/-- The percents carried by the progress events of the in-process loop,
starting at 1-based index `idx`. -/
theorem progressPercents_processFiles (enc : SaveOp → Option ℕ) (total : ℕ)
    (q : ℤ) (cp : Bool) (idx : ℕ) (fs : List InputFile) :
    progressPercents (processFiles enc total q cp idx fs).1 =
      (List.range fs.length).map
        (fun k => (((idx + k : ℕ) : ℚ) / (total : ℚ)) * 100) := by
  induction fs generalizing idx with
  | nil => rfl
  | cons f t ih =>
    simp only [processFiles, wandOptimizeImage, List.length_cons,
      List.range_succ_eq_map, List.map_cons, List.map_map]
    rw [show ([Event.progress (((idx : ℚ) / (total : ℚ)) * 100),
          Event.fileComplete (wandFileResult enc f q cp).1] ++
          (processFiles enc total q cp (idx + 1) t).1) =
        Event.progress (((idx : ℚ) / (total : ℚ)) * 100) ::
          Event.fileComplete (wandFileResult enc f q cp).1 ::
          (processFiles enc total q cp (idx + 1) t).1 from rfl]
    simp only [progressPercents, List.filterMap_cons]
    rw [← progressPercents, ih]
    have harith : ∀ k : ℕ, idx + 1 + k = idx + Nat.succ k := by omega
    simp only [Function.comp_def, harith, Nat.add_zero]

/-- The terminal segment of the in-process loop's events: a nonempty batch
ends with the last file's progress event immediately followed by its
FileComplete. -/
theorem processFiles_last (enc : SaveOp → Option ℕ) (total : ℕ) (q : ℤ)
    (cp : Bool) (idx : ℕ) (fs : List InputFile) (hfs : fs ≠ []) :
    ∃ pre r, (processFiles enc total q cp idx fs).1 =
      pre ++ [Event.progress ((((idx + fs.length - 1 : ℕ)) : ℚ) / (total : ℚ) * 100),
              Event.fileComplete r] := by
  induction fs generalizing idx with
  | nil => exact absurd rfl hfs
  | cons f t ih =>
    cases t with
    | nil =>
      refine ⟨[], (wandFileResult enc f q cp).1, ?_⟩
      simp [processFiles, wandOptimizeImage]
    | cons f' t' =>
      obtain ⟨pre, r, hpre⟩ := ih (idx + 1) (by simp)
      refine ⟨[Event.progress (((idx : ℚ) / (total : ℚ)) * 100),
        Event.fileComplete (wandFileResult enc f q cp).1] ++ pre, r, ?_⟩
      have harith : idx + 1 + (f' :: t').length - 1 = idx + (f :: f' :: t').length - 1 := by
        simp only [List.length_cons]
        omega
      have hstep : (processFiles enc total q cp idx (f :: f' :: t')).1 =
          [Event.progress (((idx : ℚ) / (total : ℚ)) * 100),
           Event.fileComplete (wandFileResult enc f q cp).1] ++
          (processFiles enc total q cp (idx + 1) (f' :: t')).1 := rfl
      rw [hstep, hpre, harith]
      simp

/-- The distributed task's results are exactly the per-file results, one per
file and in file order. -/
theorem tasksResults_processFiles (enc : SaveOp → Option ℕ) (total : ℕ)
    (q : ℤ) (cp : Bool) (processed : ℕ) (fs : List InputFile) :
    (tasksProcessFiles enc total q cp processed fs).1 =
      fs.map (fun f => (tasksFileResult enc f q cp).1) := by
  induction fs generalizing processed with
  | nil => rfl
  | cons f t ih => simp [tasksProcessFiles, ih]

/-- The distributed task's progress snapshots carry
`(processed / total) * 100` with `processed` counting completed files. -/
theorem tasksSnapshots_processFiles (enc : SaveOp → Option ℕ) (total : ℕ)
    (q : ℤ) (cp : Bool) (processed : ℕ) (fs : List InputFile) :
    (tasksProcessFiles enc total q cp processed fs).2.1 =
      (List.range fs.length).map
        (fun k => { progress := (((processed + k + 1 : ℕ) : ℚ) / (total : ℚ)) * 100,
                    current := processed + k + 1, total := total : Snapshot }) := by
  induction fs generalizing processed with
  | nil => rfl
  | cons f t ih =>
    simp only [tasksProcessFiles, List.length_cons, List.range_succ_eq_map,
      List.map_cons, List.map_map, ih]
    have harith : ∀ k : ℕ, processed + 1 + k = processed + Nat.succ k := by omega
    simp only [Function.comp_def, harith, Nat.add_zero]

/-- The terminal event contributes no FileComplete record. -/
theorem fileCompletes_append_complete (l : List Event) :
    fileCompletes (l ++ [Event.processingComplete]) = fileCompletes l := by
  simp [fileCompletes, List.filterMap_append]

/-- The terminal event contributes no progress percent. -/
theorem progressPercents_append_complete (l : List Event) :
    progressPercents (l ++ [Event.processingComplete]) = progressPercents l := by
  simp [progressPercents, List.filterMap_append]

end Helpers

/-- C8: for every processed file, savingPercentage equals
(originalSize − optimizedSize) / originalSize · 100 when originalSize > 0
and 0 when originalSize = 0 (no division by zero); a file shrunk from 1000
to 400 bytes gives exactly 60, the value may be negative when the output is
larger than the input, and both per-file transforms record exactly this
value on every successful save. -/
theorem c8_saving_percentage :
    (∀ origSize optSize : ℕ, 0 < origSize →
      savingPercentage origSize optSize =
        (((origSize : ℚ) - (optSize : ℚ)) / (origSize : ℚ)) * 100) ∧
    (∀ optSize : ℕ, savingPercentage 0 optSize = 0) ∧
    savingPercentage 1000 400 = 60 ∧
    savingPercentage 1000 1500 < 0 ∧
    (∀ (enc : SaveOp → Option ℕ) (f : InputFile) (q : ℤ) (cp : Bool),
      ((wandFileResult enc f q cp).2).isSome = true →
      (wandFileResult enc f q cp).1.savingPercentage =
        savingPercentage (wandFileResult enc f q cp).1.originalSize
          (wandFileResult enc f q cp).1.optimizedSize) ∧
    (∀ (enc : SaveOp → Option ℕ) (f : InputFile) (q : ℤ) (cp : Bool),
      ((tasksFileResult enc f q cp).2).isSome = true →
      (tasksFileResult enc f q cp).1.savingPercentage =
        savingPercentage (tasksFileResult enc f q cp).1.originalSize
          (tasksFileResult enc f q cp).1.optimizedSize) := by
  refine ⟨?_, ?_, ?_, ?_, ?_, ?_⟩
  · intro o s ho
    simp [savingPercentage, ho]
  · intro s
    simp [savingPercentage]
  · norm_num [savingPercentage]
  · norm_num [savingPercentage]
  · intro enc f q cp h
    unfold wandFileResult at h ⊢
    split at h
    · simp at h
    · simp only [] at h ⊢
      split at h
      · simp at h
      · simp_all
  · intro enc f q cp h
    unfold tasksFileResult at h ⊢
    split at h
    · simp at h
    · simp only [] at h ⊢
      split at h
      · simp at h
      · simp_all

/-- Witness for C8 at concrete inputs: 1000→400 bytes under the positive
branch, a 0-byte original, and the concrete PNG fixture through the Wand
transform. -/
theorem c8_saving_percentage_witness :
    savingPercentage 1000 400 = (((1000 : ℚ) - (400 : ℚ)) / (1000 : ℚ)) * 100 ∧
    savingPercentage 0 17 = 0 ∧
    (wandFileResult enc10 pngFile 85 false).1.savingPercentage =
      savingPercentage (wandFileResult enc10 pngFile 85 false).1.originalSize
        (wandFileResult enc10 pngFile 85 false).1.optimizedSize := by
  refine ⟨c8_saving_percentage.1 1000 400 (by norm_num),
    c8_saving_percentage.2.1 17,
    c8_saving_percentage.2.2.2.2.1 enc10 pngFile 85 false (by decide)⟩

/-- C9: the in-process walker admits the seven extensions
{.jpg, .jpeg, .png, .gif, .bmp, .tiff, .webp} while the distributed task
and the CLI admit only {.jpg, .jpeg, .png}; on a tree holding only a .gif
file the two modes disagree on totalFiles (1 vs 0) and on the artifact
contents (nonempty vs empty). -/
theorem c9_walker_divergence :
    tasksImageExtensions = cliImageExtensions ∧
    appImageExtensions =
      [".jpg", ".jpeg", ".png", ".gif", ".bmp", ".tiff", ".webp"] ∧
    tasksImageExtensions = [".jpg", ".jpeg", ".png"] ∧
    ((".gif") ∈ appImageExtensions ∧ (".gif") ∉ tasksImageExtensions) ∧
    (discover appImageExtensions gifTree).length = 1 ∧
    (discover tasksImageExtensions gifTree).length = 0 ∧
    (processImages enc10 gifTree 85 false).2 ≠ [] ∧
    (tasksProcessImages enc10 gifTree 85 false).2.2 = [] := by
  refine ⟨rfl, rfl, rfl, by decide, by decide, by decide, by decide, by decide⟩

/-- C10: for every input file that is not decoded as JPEG and not converted
to JPEG (convertPng off, or not a PNG, or transparency present under the
variant's own transparency test), the per-file outcome — result record and
output entry — is identical across any two jpegQuality values, in all three
variants. -/
theorem c10_quality_independence (enc : SaveOp → Option ℕ) (f : InputFile)
    (img : DecodedImage) (q₁ q₂ : ℤ) (cp : Bool) (hd : f.decoded = some img)
    (hfmt : img.format ≠ Format.JPEG) :
    ((cp = false ∨ img.format ≠ Format.PNG ∨ img.alphaChannel = true) →
      wandFileResult enc f q₁ cp = wandFileResult enc f q₂ cp) ∧
    ((cp = false ∨ img.format ≠ Format.PNG ∨ pilHasTransparency img = true) →
      tasksFileResult enc f q₁ cp = tasksFileResult enc f q₂ cp ∧
      cliOptimizeImage enc f q₁ cp = cliOptimizeImage enc f q₂ cp) := by
  have hj : (img.format == Format.JPEG) = false := beq_eq_false_iff_ne.mpr hfmt
  constructor
  · intro h
    have hc : (cp && (img.format == Format.PNG) && !img.alphaChannel) = false := by
      rcases h with h | h | h
      · simp [h]
      · simp [beq_eq_false_iff_ne.mpr h]
      · simp [h]
    simp [wandFileResult, hd, hc, hj]
  · intro h
    have hc : (cp && (img.format == Format.PNG) && !pilHasTransparency img) = false := by
      rcases h with h | h | h
      · simp [h]
      · simp [beq_eq_false_iff_ne.mpr h]
      · simp [h]
    constructor
    · simp [tasksFileResult, hd, hc, hj]
    · simp [cliOptimizeImage, hd, hc, hj]

/-- Witness for C10: a transparent PNG under convertPng with qualities
10 and 90 produces identical outcomes in all three variants. -/
theorem c10_quality_independence_witness :
    wandFileResult enc10 alphaFile 10 true = wandFileResult enc10 alphaFile 90 true ∧
    tasksFileResult enc10 alphaFile 10 true = tasksFileResult enc10 alphaFile 90 true ∧
    cliOptimizeImage enc10 alphaFile 10 true = cliOptimizeImage enc10 alphaFile 90 true := by
  have h := c10_quality_independence enc10 alphaFile pngAlphaImg 10 90 true rfl (by decide)
  exact ⟨h.1 (Or.inr (Or.inr (by decide))),
    (h.2 (Or.inr (Or.inr (by decide)))).1,
    (h.2 (Or.inr (Or.inr (by decide)))).2⟩

/-- C5 counterexample: a transparent PNG with convertPng=true through the
in-process (Wand) transform gets status "optimized", not the "skipped" the
claim requires. -/
theorem c5_counterexample :
    (wandFileResult enc10 alphaFile 85 true).1.status = "optimized" ∧
    ¬ (wandFileResult enc10 alphaFile 85 true).1.status = "skipped" := by
  constructor <;> decide

/-- C5 amended: for a PNG carrying transparency under convertPng=true the
conversion is skipped in both modes — the output stays PNG under the
original basename (no .jpg entry) — but only the distributed variant
reports status "skipped"; the in-process (Wand) variant reports
"optimized". -/
theorem c5_transparent_png_skip (enc : SaveOp → Option ℕ) (f : InputFile)
    (img : DecodedImage) (q : ℤ) (s : ℕ) (hd : f.decoded = some img)
    (hpng : img.format = Format.PNG) :
    (img.alphaChannel = true → enc (SaveOp.asIs img.content Format.PNG) = some s →
      wandFileResult enc f q true =
        ({ fileName := f.name, originalSize := f.originalSize, optimizedSize := s,
           savingPercentage := savingPercentage f.originalSize s,
           status := "optimized" },
         some { dir := f.dir, base := f.name, size := s,
                op := SaveOp.asIs img.content Format.PNG })) ∧
    (pilHasTransparency img = true → enc (SaveOp.png img.content true) = some s →
      tasksFileResult enc f q true =
        ({ fileName := f.name, originalSize := f.originalSize, optimizedSize := s,
           savingPercentage := savingPercentage f.originalSize s,
           status := "skipped" },
         some { dir := f.dir, base := f.name, size := s,
                op := SaveOp.png img.content true })) := by
  constructor
  · intro ha he
    simp [wandFileResult, hd, hpng, ha, he]
  · intro hp he
    simp [tasksFileResult, hd, hpng, hp, he]

/-- Witness for C5 (amended) at the transparent-PNG fixture: both variants
keep the PNG and its basename; statuses differ as stated. -/
theorem c5_transparent_png_skip_witness :
    wandFileResult enc10 alphaFile 85 true =
      ({ fileName := "t.png", originalSize := 400, optimizedSize := 10,
         savingPercentage := savingPercentage 400 10, status := "optimized" },
       some { dir := ".", base := "t.png", size := 10,
              op := SaveOp.asIs 6 Format.PNG }) ∧
    tasksFileResult enc10 alphaFile 85 true =
      ({ fileName := "t.png", originalSize := 400, optimizedSize := 10,
         savingPercentage := savingPercentage 400 10, status := "skipped" },
       some { dir := ".", base := "t.png", size := 10,
              op := SaveOp.png 6 true }) := by
  have h := c5_transparent_png_skip enc10 alphaFile pngAlphaImg 85 10 rfl rfl
  exact ⟨h.1 rfl rfl, h.2 (by decide) rfl⟩

/-- C7 counterexample: the accepted submission's whole response body is
`{"status": "success"}` — it has a single key, `status`, and no job id. -/
theorem c7_counterexample :
    (optimizeSubmit reqOk).response = [("status", "success")] ∧
    (optimizeSubmit reqOk).response.lookup ("job_id") = none ∧
    (optimizeSubmit reqOk).response.map Prod.fst = ["status"] := by
  refine ⟨by decide, by decide, by decide⟩

/-- C7 amended: every accepted submission returns immediately with a bare
success acknowledgement — HTTP 200, body `{"status": "success"}`, no job
id — while the processing work is dispatched unevaluated; the submission's
return value never depends on the processing run. -/
theorem c7_submit_immediate (req : UploadRequest) (entries : List (List String))
    (hpart : req.hasFilePart = true) (hname : ¬ req.filename = "")
    (hzip : endsWithZip req.filename = true) (hent : req.zipEntries = some entries) :
    optimizeSubmit req =
      { response := [("status", "success")], httpStatus := 200,
        job := some { jpegQuality := req.jpegQualityField.getD 85,
                      convertPng := req.convertPngField,
                      extracted := entries.map (extractTarget inputRoot) } } ∧
    (∀ (enc : SaveOp → Option ℕ) (walked : List InputFile) (freshName : String)
        (st : ServerState),
      (runJob enc walked freshName st req).1 = optimizeSubmit req) := by
  constructor
  · have h1 : (req.filename == "") = false := beq_eq_false_iff_ne.mpr hname
    simp [optimizeSubmit, hpart, h1, hzip, hent]
  · intro enc walked freshName st
    unfold runJob
    simp only []
    split <;> rfl

/-- Witness for C7 (amended) at the concrete valid request. -/
theorem c7_submit_immediate_witness :
    optimizeSubmit reqOk =
      { response := [("status", "success")], httpStatus := 200,
        job := some { jpegQuality := (85 : ℤ), convertPng := false,
                      extracted := [["tmp", "input", "a.png"]] } } ∧
    (runJob enc10 gifTree ("z") st0 reqOk).1 = optimizeSubmit reqOk := by
  have h := c7_submit_immediate reqOk [["a.png"]] rfl (by decide) (by decide) rfl
  exact ⟨h.1, h.2 enc10 gifTree ("z") st0⟩

/-- C4 counterexample: an archive entry "../evil.png" resolves outside the
extraction root, yet the submission succeeds (HTTP 200, a job is started),
the entry is materialized inside the root as "evil.png", and the job runs
to the terminal processing_complete event with a nonempty output tree —
there is no Failed transition and no InvalidArchive taxonomy. -/
theorem c4_counterexample :
    wouldEscape ["..", "evil.png"] = true ∧
    extractTarget inputRoot ["..", "evil.png"] = ["tmp", "input", "evil.png"] ∧
    (optimizeSubmit reqEvil).httpStatus = 200 ∧
    (optimizeSubmit reqEvil).response = [("status", "success")] ∧
    (optimizeSubmit reqEvil).job.isSome = true ∧
    (processImages enc10 evilTree 85 false).1.getLast? = some Event.processingComplete ∧
    ¬ (processImages enc10 evilTree 85 false).2 = [] := by
  refine ⟨by decide, by decide, by decide, by decide, by decide, by decide, by decide⟩

/-- C4 amended: path-escaping archive entries are not rejected — CPython's
extractall drops empty, "." and ".." components, so every entry
materializes inside inputRoot and the job proceeds normally; the only
archive-level rejection is a malformed archive (BadZipFile), refused with a
400 error before any job is started. -/
theorem c4_extraction_sanitized (root parts : List String) (req : UploadRequest) :
    extractTarget root parts = root ++ sanitizeMember parts ∧
    ((".." : String) ∉ sanitizeMember parts ∧ ("." : String) ∉ sanitizeMember parts ∧
      ("" : String) ∉ sanitizeMember parts) ∧
    (req.zipEntries = none → req.hasFilePart = true → ¬ req.filename = "" →
      endsWithZip req.filename = true →
      optimizeSubmit req =
        { response := [("status", "error"), ("message", "Invalid ZIP file")],
          httpStatus := 400, job := none }) := by
  refine ⟨rfl, ⟨?_, ?_, ?_⟩, ?_⟩
  · intro h
    have := List.of_mem_filter h
    simp at this
  · intro h
    have := List.of_mem_filter h
    simp at this
  · intro h
    have := List.of_mem_filter h
    simp at this
  · intro hent hpart hname hzip
    have h1 : (req.filename == "") = false := beq_eq_false_iff_ne.mpr hname
    simp [optimizeSubmit, hpart, h1, hzip, hent]

/-- Witness for C4 (amended): the escaping entry lands under the root with
its ".." dropped, and the malformed-archive request is refused with no job. -/
theorem c4_extraction_sanitized_witness :
    extractTarget inputRoot ["..", "", ".", "evil.png"] =
      inputRoot ++ sanitizeMember ["..", "", ".", "evil.png"] ∧
    (".." : String) ∉ sanitizeMember ["..", "", ".", "evil.png"] ∧
    optimizeSubmit reqBadZip =
      { response := [("status", "error"), ("message", "Invalid ZIP file")],
        httpStatus := 400, job := none } := by
  have h := c4_extraction_sanitized inputRoot ["..", "", ".", "evil.png"] reqBadZip
  exact ⟨h.1, h.2.1.1, h.2.2 rfl rfl (by decide) (by decide)⟩

/-- C2 counterexample: an artifact that is never retrieved is never deleted.
Starting from a store holding artifact "a", after registering and
downloading other artifacts — the only operations the code has, there being
no reaper — "a" is still present. The claim's reaper clause fails. -/
theorem c2_counterexample :
    (applyOps st0 opsOther).downloads.lookup ("a") = some [] ∧
    st0.downloads.lookup ("a") = some [] := by
  refine ⟨by decide, by decide⟩

/-- C2 amended: the first retrieval of a registered artifact returns its
bytes — looked up before the close-time cleanup runs — and the close-time
cleanup deletes it, so every later request returns not-found; but no reaper
exists: an artifact that is never downloaded survives every sequence of
store operations. -/
theorem c2_artifact_take_once (st : ServerState) (name : String)
    (art : List OutputEntry) (h : st.downloads.lookup name = some art) :
    downloadLookup st name = some art ∧
    downloadLookup (downloadClose st name) name = none ∧
    (∀ ops : List StoreOp, StoreOp.download name ∉ ops →
      (applyOps st ops).downloads.lookup name = some art) := by
  refine ⟨h, ?_, ?_⟩
  · unfold downloadClose downloadLookup
    rw [h]
    exact lookup_filter_self st.downloads name
  · intro ops hops
    induction ops generalizing st with
    | nil => exact h
    | cons op rest ih =>
      have hop : op ≠ StoreOp.download name := fun he => hops (he ▸ List.mem_cons_self op rest)
      have hrest : StoreOp.download name ∉ rest := fun hm => hops (List.mem_cons_of_mem op hm)
      cases op with
      | register n a =>
        exact ih { st with downloads := st.downloads ++ [(n, a)] }
          (lookup_append_some h) hrest
      | download n =>
        have hne : name ≠ n := fun he => hop (he ▸ rfl)
        refine ih (downloadClose st n) ?_ hrest
        unfold downloadClose
        cases hl : st.downloads.lookup n with
        | none => exact h
        | some a => exact (lookup_filter_ne hne).trans h

/-- Witness for C2 (amended) at the concrete one-artifact store: first
download of "a" returns the artifact, a repeat lookup after the close-time
cleanup is not-found, and "a" survives operations that never download it. -/
theorem c2_artifact_take_once_witness :
    downloadLookup st0 ("a") = some [] ∧
    downloadLookup (downloadClose st0 ("a")) ("a") = none ∧
    (applyOps st0 [StoreOp.register ("b") [], StoreOp.download ("b")]
      ).downloads.lookup ("a") = some [] := by
  have h := c2_artifact_take_once st0 ("a") [] (by decide)
  exact ⟨h.1, h.2.1,
    h.2.2 [StoreOp.register ("b") [], StoreOp.download ("b")] (by decide)⟩

/-- C6: the lifetime counter increases by exactly 1 for every job that
reaches Complete — the increment happens in the same terminal step that
assembles and registers the artifact — and a rejected submission (the
code's only failure path) leaves the counter and the whole server state
unchanged. -/
theorem c6_lifetime_counter (enc : SaveOp → Option ℕ) (walked : List InputFile)
    (freshName : String) (st : ServerState) (req : UploadRequest) :
    (∀ j, (optimizeSubmit req).job = some j →
      (runJob enc walked freshName st req).2.2.optimizationCount =
        st.optimizationCount + 1 ∧
      (runJob enc walked freshName st req).2.2.downloads =
        st.downloads ++
          [(freshName, (processImages enc walked j.jpegQuality j.convertPng).2)]) ∧
    ((optimizeSubmit req).job = none →
      (runJob enc walked freshName st req).2.2 = st) := by
  constructor
  · intro j hj
    unfold runJob
    simp only [hj]
    constructor
    · rw [runStream_count,
        if_pos (processingComplete_mem enc walked j.jpegQuality j.convertPng)]
    · rw [runStream_downloads,
        if_pos (processingComplete_mem enc walked j.jpegQuality j.convertPng)]
  · intro hj
    unfold runJob
    simp only [hj]

/-- Witness for C6: a completed concrete job bumps the counter by one; a
rejected (BadZipFile) submission leaves the server state untouched. -/
theorem c6_lifetime_counter_witness :
    (runJob enc10 gifTree ("z") st0 reqOk).2.2.optimizationCount =
      st0.optimizationCount + 1 ∧
    (runJob enc10 gifTree ("z") st0 reqBadZip).2.2 = st0 := by
  have h1 := c6_lifetime_counter enc10 gifTree ("z") st0 reqOk
  have h2 := c6_lifetime_counter enc10 gifTree ("z") st0 reqBadZip
  exact ⟨(h1.1 jobOk (by decide)).1, h2.2 (by decide)⟩

/-- C1: per-file failure isolation — the event stream carries exactly one
FileComplete record per discovered file, in file order, each a function of
that file alone (so a failing file leaves the other files' results
unchanged); undecodable input (decoded = none) and any codec exception
(every attempt whose save writes no output, and in particular a save-time
failure of the encoder on a decodable image) yield the record with
optimizedSize = 0, savingPercentage = 0, status = "error" in both modes;
and the batch still ends with the terminal event and registers its
artifact. -/
theorem c1_failure_isolation (enc : SaveOp → Option ℕ) (walked : List InputFile)
    (q : ℤ) (cp : Bool) :
    fileCompletes (processImages enc walked q cp).1 =
      (discover appImageExtensions walked).map
        (fun f => (wandFileResult enc f q cp).1) ∧
    (∀ f : InputFile, f.decoded = none →
      (wandFileResult enc f q cp).1 =
        { fileName := f.name, originalSize := f.originalSize, optimizedSize := 0,
          savingPercentage := 0, status := "error" } ∧
      (tasksFileResult enc f q cp).1 =
        { fileName := f.name, originalSize := f.originalSize, optimizedSize := 0,
          savingPercentage := 0, status := "error" }) ∧
    (∀ f : InputFile, (wandFileResult enc f q cp).2 = none →
      (wandFileResult enc f q cp).1 =
        { fileName := f.name, originalSize := f.originalSize, optimizedSize := 0,
          savingPercentage := 0, status := "error" }) ∧
    (∀ f : InputFile, (tasksFileResult enc f q cp).2 = none →
      (tasksFileResult enc f q cp).1 =
        { fileName := f.name, originalSize := f.originalSize, optimizedSize := 0,
          savingPercentage := 0, status := "error" }) ∧
    (∀ (f : InputFile) (img : DecodedImage), f.decoded = some img →
      (∀ op, enc op = none) →
      wandFileResult enc f q cp =
        ({ fileName := f.name, originalSize := f.originalSize, optimizedSize := 0,
           savingPercentage := 0, status := "error" }, none) ∧
      tasksFileResult enc f q cp =
        ({ fileName := f.name, originalSize := f.originalSize, optimizedSize := 0,
           savingPercentage := 0, status := "error" }, none)) ∧
    (processImages enc walked q cp).1.getLast? = some Event.processingComplete ∧
    (∀ (freshName : String) (st : ServerState),
      (runStream freshName (processImages enc walked q cp).2 st
          (processImages enc walked q cp).1).2.downloads =
        st.downloads ++ [(freshName, (processImages enc walked q cp).2)]) ∧
    (tasksProcessImages enc walked q cp).1 =
      (discover tasksImageExtensions walked).map
        (fun f => (tasksFileResult enc f q cp).1) := by
  refine ⟨?_, ?_, ?_, ?_, ?_, ?_, ?_, ?_⟩
  · unfold processImages
    simp only []
    rw [fileCompletes_append_complete, fileCompletes_processFiles]
  · intro f hf
    constructor
    · simp [wandFileResult, hf]
    · simp [tasksFileResult, hf]
  · intro f hsnd
    unfold wandFileResult at hsnd ⊢
    split at hsnd
    · simp_all
    · simp only [] at hsnd ⊢
      split at hsnd
      · simp_all
      · simp at hsnd
  · intro f hsnd
    unfold tasksFileResult at hsnd ⊢
    split at hsnd
    · simp_all
    · simp only [] at hsnd ⊢
      split at hsnd
      · simp_all
      · simp at hsnd
  · intro f img hd hfail
    constructor
    · simp [wandFileResult, hd, hfail]
    · simp [tasksFileResult, hd, hfail]
  · unfold processImages
    simp only []
    exact List.getLast?_concat _
  · intro freshName st
    rw [runStream_downloads, if_pos (processingComplete_mem enc walked q cp)]
  · unfold tasksProcessImages
    simp only []
    exact tasksResults_processFiles enc _ q cp 0 _

/-- Witness for C1 at a concrete three-file batch whose middle file fails
to decode: one error record for it, the run still ends with the terminal
event, and a decodable PNG whose save raises (encNone) also yields exactly
the error record in both variants. -/
theorem c1_failure_isolation_witness :
    fileCompletes (processImages enc10 mixedTree 85 false).1 =
      (discover appImageExtensions mixedTree).map
        (fun f => (wandFileResult enc10 f 85 false).1) ∧
    (wandFileResult enc10 badFile 85 false).1 =
      { fileName := "bad.png", originalSize := 7, optimizedSize := 0,
        savingPercentage := 0, status := "error" } ∧
    wandFileResult encNone pngFile 85 false =
      ({ fileName := "evil.png", originalSize := 300, optimizedSize := 0,
         savingPercentage := 0, status := "error" }, none) ∧
    tasksFileResult encNone pngFile 85 false =
      ({ fileName := "evil.png", originalSize := 300, optimizedSize := 0,
         savingPercentage := 0, status := "error" }, none) ∧
    (processImages enc10 mixedTree 85 false).1.getLast? =
      some Event.processingComplete := by
  have h1 := c1_failure_isolation enc10 mixedTree 85 false
  have h2 := c1_failure_isolation encNone mixedTree 85 false
  have hsave := h2.2.2.2.2.1 pngFile pngImg rfl (fun op => rfl)
  exact ⟨h1.1, (h1.2.1 badFile rfl).1, hsave.1, hsave.2, h1.2.2.2.2.2.1⟩

/-- C3 counterexample: for a one-file batch the very first event is already
Progress{percent = 100}, and a FileComplete occurs strictly after it — so
percent reaches 100 before the last FileComplete, contradicting the claim. -/
theorem c3_counterexample :
    (processImages enc10 evilTree 85 false).1.take 1 = [Event.progress 100] ∧
    (fileCompletes ((processImages enc10 evilTree 85 false).1.drop 1)).length = 1 := by
  have h : (processImages enc10 evilTree 85 false).1 =
      [Event.progress (((1 : ℕ) : ℚ) / ((1 : ℕ) : ℚ) * 100),
       Event.fileComplete (wandFileResult enc10 pngFile 85 false).1,
       Event.processingComplete] := rfl
  rw [h]
  constructor
  · norm_num
  · rfl

/-- C3 amended: in the in-process mode the Progress event for the file at
1-based index i of total carries percent = i/total·100 and precedes that
file's FileComplete; percents are non-decreasing across the stream; but
percent reaches 100 at the last file's Progress event, which comes
immediately before — not at or after — the last FileComplete. The
distributed mode publishes snapshot percent = processed/total·100 after
each file, with current counting completed files. -/
theorem c3_progress_events (enc : SaveOp → Option ℕ) (walked : List InputFile)
    (q : ℤ) (cp : Bool) :
    progressPercents (processImages enc walked q cp).1 =
      (List.range (discover appImageExtensions walked).length).map
        (fun k => (((k + 1 : ℕ) : ℚ) /
          (((discover appImageExtensions walked).length : ℕ) : ℚ)) * 100) ∧
    List.Pairwise (· ≤ ·) (progressPercents (processImages enc walked q cp).1) ∧
    (discover appImageExtensions walked ≠ [] →
      ∃ pre r, (processImages enc walked q cp).1 =
        pre ++ [Event.progress 100, Event.fileComplete r,
                Event.processingComplete]) ∧
    (tasksProcessImages enc walked q cp).2.1 =
      (List.range (discover tasksImageExtensions walked).length).map
        (fun k =>
          ({ progress :=
               (((k + 1 : ℕ) : ℚ) /
                 (((discover tasksImageExtensions walked).length : ℕ) : ℚ)) * 100,
             current := k + 1,
             total := (discover tasksImageExtensions walked).length } : Snapshot)) := by
  have hcomm : ∀ k : ℕ, 1 + k = k + 1 := by omega
  have hp : progressPercents (processImages enc walked q cp).1 =
      (List.range (discover appImageExtensions walked).length).map
        (fun k => (((k + 1 : ℕ) : ℚ) /
          (((discover appImageExtensions walked).length : ℕ) : ℚ)) * 100) := by
    unfold processImages
    simp only []
    rw [progressPercents_append_complete, progressPercents_processFiles]
    simp only [hcomm]
  refine ⟨hp, ?_, ?_, ?_⟩
  · rw [hp]
    refine List.Pairwise.map _ ?_
      (List.pairwise_lt_range (discover appImageExtensions walked).length)
    intro a b hab
    have h1 : ((a + 1 : ℕ) : ℚ) ≤ ((b + 1 : ℕ) : ℚ) := by
      exact_mod_cast Nat.succ_le_succ hab.le
    have h2 : (0 : ℚ) ≤ (((discover appImageExtensions walked).length : ℕ) : ℚ)⁻¹ :=
      inv_nonneg.mpr (by positivity)
    rw [div_eq_mul_inv, div_eq_mul_inv]
    exact mul_le_mul_of_nonneg_right (mul_le_mul_of_nonneg_right h1 h2) (by norm_num)
  · intro hne
    have hlen : (discover appImageExtensions walked).length ≠ 0 :=
      fun h => hne (List.length_eq_zero.mp h)
    obtain ⟨pre, r, hpre⟩ := processFiles_last enc
      (discover appImageExtensions walked).length q cp 1
      (discover appImageExtensions walked) hne
    refine ⟨pre, r, ?_⟩
    unfold processImages
    simp only []
    rw [hpre]
    have harith : 1 + (discover appImageExtensions walked).length - 1 =
        (discover appImageExtensions walked).length := by omega
    rw [harith]
    have h100 : ((((discover appImageExtensions walked).length : ℕ) : ℚ) /
        (((discover appImageExtensions walked).length : ℕ) : ℚ)) * 100 = 100 := by
      rw [div_self (by exact_mod_cast hlen)]
      norm_num
    rw [h100]
    simp [List.append_assoc]
  · unfold tasksProcessImages
    simp only []
    rw [tasksSnapshots_processFiles]
    simp only [Nat.zero_add]

/-- Witness for C3 (amended): the concrete one-file batch ends with
Progress{100} immediately followed by the last FileComplete and the
terminal event. -/
theorem c3_progress_events_witness :
    ∃ pre r, (processImages enc10 evilTree 85 false).1 =
      pre ++ [Event.progress 100, Event.fileComplete r,
              Event.processingComplete] := by
  exact (c3_progress_events enc10 evilTree 85 false).2.2.1 (by decide)

end ImageOptimizer
